import Mathlib

/-!
Verification of the realtor voice/SMS gateway against its design spec.

The embedding models, from the source:
- `update_search_criteria` (src/src/util.py): the shallow dict merge used as
  the langgraph reducer for `search_criteria`.
- `Assistant.__call__` (src/src/util.py): the retry-on-empty-output loop.
- `websocket_handler.handle_message` (src/app-retell/server.py): per-event
  dispatch over inbound Retell events, plus the session receive loop.
- the concurrent turn coordinator: the `response_id` supersession protocol
  of `websocket_handler`, as a small-step system over task interleavings.
- `handle_webhook` and `handle_sms` (src/app-retell/server.py).

Python dict fields are `Option (Option α)`: the outer `Option` is key
presence (`none` = key absent), the inner one is the JSON value
(`none` = null / Python `None`).
-/

namespace Realtor

/-! ## SearchCriteria and update_search_criteria (src/src/util.py) -/

/-- A `SearchCriteria` dict. Each field is `none` when the key is absent,
`some none` when present with value `None`, `some (some v)` otherwise. -/
structure SearchCriteria where
  city : Option (Option String)
  state : Option (Option String)
  bedrooms : Option (Option Nat)
  bathrooms : Option (Option Nat)
  max_price : Option (Option Nat)
  min_price : Option (Option Nat)
deriving DecidableEq

/-- Per-key semantics of the Python merge `\x7b**current, **update\x7d`:
a key present in `update` (with any value, null included) overrides;
an absent key keeps the current binding. -/
def mergeField (c u : Option (Option α)) : Option (Option α) :=
  match u with
  | none => c
  | some v => some v

/-- `update_search_criteria(current, update) = \x7b**current, **update\x7d`. -/
def update_search_criteria (current update : SearchCriteria) : SearchCriteria :=
  { city := mergeField current.city update.city
    state := mergeField current.state update.state
    bedrooms := mergeField current.bedrooms update.bedrooms
    bathrooms := mergeField current.bathrooms update.bathrooms
    max_price := mergeField current.max_price update.max_price
    min_price := mergeField current.min_price update.min_price }

/-- Folding a sequence of updates into an initial criteria dict, in arrival
order, through the reducer `update_search_criteria`. -/
def applyUpdates (init : SearchCriteria) (updates : List SearchCriteria) : SearchCriteria :=
  updates.foldl update_search_criteria init

/-- Modelled from the spec's words (for comparison with the code's merge):
"last non-null wins" per field — a supplied null does NOT override. -/
def specMergeField (c u : Option (Option α)) : Option (Option α) :=
  match u with
  | some (some v) => some (some v)
  | _ => c

/-- Modelled from the spec's words: shallow merge where for every field the
last non-null value supplied wins. -/
def spec_merge_criteria (current update : SearchCriteria) : SearchCriteria :=
  { city := specMergeField current.city update.city
    state := specMergeField current.state update.state
    bedrooms := specMergeField current.bedrooms update.bedrooms
    bathrooms := specMergeField current.bathrooms update.bathrooms
    max_price := specMergeField current.max_price update.max_price
    min_price := specMergeField current.min_price update.min_price }

/-- The last value supplied for one key across a list of updates (`none`
entries did not mention the key); the prior binding if never supplied. -/
def lastSupplied (c : Option (Option α)) (us : List (Option (Option α))) : Option (Option α) :=
  match (us.filterMap id).getLast? with
  | none => c
  | some v => some v

/-! ## Assistant retry loop (src/src/util.py, Assistant.__call__) -/

/-- The model output's `content`: a Python `str`, or a list of content
blocks where each block's `.get("text")` is `none` or a string. -/
inductive ModelContent where
  | text : String → ModelContent
  | blocks : List (Option String) → ModelContent
deriving DecidableEq

/-- The result of `self.runnable.invoke(state)`. -/
structure ModelResult where
  tool_calls : List String
  content : ModelContent
deriving DecidableEq

/-- Python truthiness test `not result.content`: the empty string and the
empty list are falsy. -/
def contentFalsy : ModelContent → Bool
  | .text s => s = ""
  | .blocks l => l = []

/-- The loop guard of `Assistant.__call__`:
`not result.tool_calls and (not result.content or isinstance(result.content, list) and not result.content[0].get("text"))`. -/
def emptyOutput (r : ModelResult) : Bool :=
  r.tool_calls.isEmpty &&
    (contentFalsy r.content ||
      (match r.content with
       | .blocks (b :: _) => b.getD "" == ""
       | _ => false))

/-- The `state` dict threaded through the loop: its `messages` list (role,
content pairs) and the `user_info` entry written each iteration. -/
structure AssistantState where
  messages : List (String × String)
  user_info : Option String
deriving DecidableEq

/-- `Assistant.__call__`, fuel-indexed: the source's `while True:` loop.
Each iteration writes `user_info` from the config, invokes the runnable,
and on empty output appends `("user", "Respond with a real output.")`
and retries; otherwise it returns the result. The source loop has no
retry counter, so the only exits are a non-empty result — `none` means
the given fuel ran out with the loop still spinning. -/
def assistantCall (runnable : AssistantState → ModelResult) (user_id : Option String) :
    AssistantState → Nat → Option ModelResult
  | _, 0 => none
  | st, fuel + 1 =>
    let st1 : AssistantState := { st with user_info := user_id }
    let result := runnable st1
    if emptyOutput result then
      assistantCall runnable user_id
        { st1 with messages := st1.messages ++ [("user", "Respond with a real output.")] } fuel
    else some result

/-- A model stub that always returns empty content and no tool call. -/
def alwaysEmptyRunnable : AssistantState → ModelResult :=
  fun _ => { tool_calls := [], content := .text "" }

/-! ## Webhook endpoint (src/app-retell/server.py, handle_webhook) -/

/-- An inbound webhook request as `handle_webhook` observes it:
whether `request.json()` parses, whether `retell.verify` accepts the
signature, the `event` field, and the `data` object (outer `none` = the
`data` key is absent, whose access raises; inner value = its optional
`call_id`). -/
structure WebhookRequest where
  body_parses : Bool
  signature_valid : Bool
  event : Option String
  data : Option (Option String)
deriving DecidableEq

/-- Outcome of `handle_webhook`: the HTTP status and whether the event
dispatch (the lookup/log of the event kind) ran. -/
structure WebhookOutcome where
  status : Nat
  processed_event : Bool
deriving DecidableEq

/-- `handle_webhook`: a JSON parse failure raises and is caught (500);
an invalid signature returns 401 before any event handling; a missing
`data` key raises on `post_data["data"]` and is caught (500); otherwise
the event is dispatched and 200 returned. -/
def handle_webhook (r : WebhookRequest) : WebhookOutcome :=
  if !r.body_parses then ⟨500, false⟩
  else if !r.signature_valid then ⟨401, false⟩
  else
    match r.data with
    | none => ⟨500, false⟩
    | some _ => ⟨200, true⟩

/-! ## SMS endpoint (src/app-retell/server.py, handle_sms)

`handle_sms` calls `graph.invoke(..., config)` on the module-level
`graph`/`config` pair, whose single `thread_id` is fixed at process start:
the checkpointed message thread is one process-wide list, shared by every
inbound SMS regardless of sender. The graph is modelled as that shared
thread plus an abstract reply function (the hosted LLM) applied to the
accumulated messages. -/

/-- The Twilio form data as `handle_sms` reads it: the optional `Body`
field, and the sender (present in real Twilio forms; the handler never
reads it). -/
structure SmsForm where
  body : Option String
  sender : Option String
deriving DecidableEq

/-- Result of one `handle_sms` call: HTTP status, response content, and
the process-wide thread after the call. -/
structure SmsResult where
  status : Nat
  content : String
  thread : List String
deriving DecidableEq

/-- `handle_sms`: `form_data.get("Body", None).strip()` raises
`AttributeError` when `Body` is absent, caught by the handler's
`except` (500, "An error occurred", thread untouched). Otherwise the
stripped body is appended to the shared thread, the reply function runs
on the whole accumulated thread, and the reply is returned and appended. -/
def handle_sms (replyFn : List String → String) (thread : List String) (form : SmsForm) :
    SmsResult :=
  match form.body with
  | none => ⟨500, "An error occurred", thread⟩
  | some b =>
    let msgs := thread ++ [b.trim]
    let reply := replyFn msgs
    ⟨200, reply, msgs ++ [reply]⟩

/-- A reply function the abstract LLM is allowed to be: answer with the
number of messages it was shown. -/
def replyWithCount : List String → String := fun msgs => toString msgs.length

/-! ## Websocket event dispatch (src/app-retell/server.py, handle_message)

The inner `handle_message` coroutine, per inbound event. A raw event is
the JSON dict with each field optional (`none` = key absent; Python
raises `KeyError` on access of an absent key, which kills only that
`asyncio.create_task` task). The session state the handler mutates is the
`nonlocal response_id`. -/

/-- One transcript utterance. -/
structure Utterance where
  role : String
  content : String
deriving DecidableEq

/-- An inbound websocket event as a raw JSON dict. -/
structure RawEvent where
  interaction_type : Option String
  timestamp : Option Nat
  response_id : Option Nat
  transcript : Option (List Utterance)
deriving DecidableEq

/-- An outbound websocket message sent by the handler. -/
inductive OutEvent where
  | ping_pong (timestamp : Nat)
  | response (response_id : Nat) (content : String)
deriving DecidableEq

/-- The session's mutable state: the `nonlocal response_id`. -/
structure SessionState where
  response_id : Nat
deriving DecidableEq

/-- Result of one `handle_message` task: the session state after it, the
outbound messages it sent, and whether it finished without raising
(`ok = false` = a `KeyError`/`IndexError` ended the task; the exception
stays inside the task and never reaches the receive loop). -/
structure HandleResult where
  st : SessionState
  out : List OutEvent
  ok : Bool
deriving DecidableEq

/-- `handle_message`, per the source's dispatch order. `gen rid transcript`
abstracts the fragment contents streamed by `llm_client.draft_response`.
For `response_required`/`reminder_required` the `nonlocal response_id` is
assigned BEFORE the `transcript` field is read, so a missing transcript
still updates the session state; the `print` of `transcript[-1]` raises
on an empty transcript. -/
def handle_message (gen : Nat → List Utterance → List String)
    (st : SessionState) (e : RawEvent) : HandleResult :=
  match e.interaction_type with
  | none => ⟨st, [], false⟩
  | some it =>
    if it = "call_details" then ⟨st, [], true⟩
    else if it = "ping_pong" then
      match e.timestamp with
      | none => ⟨st, [], false⟩
      | some ts => ⟨st, [.ping_pong ts], true⟩
    else if it = "update_only" then ⟨st, [], true⟩
    else if it = "response_required" || it = "reminder_required" then
      match e.response_id with
      | none => ⟨st, [], false⟩
      | some rid =>
        match e.transcript with
        | none => ⟨⟨rid⟩, [], false⟩
        | some tr =>
          if tr = [] then ⟨⟨rid⟩, [], false⟩
          else ⟨⟨rid⟩, (gen rid tr).map (.response rid), true⟩
    else ⟨st, [], true⟩

/-- The receive loop `async for data in websocket.iter_json():
asyncio.create_task(handle_message(data))`: every inbound event gets its
own task, a raising task is swallowed by the event loop, and the receive
loop keeps going regardless. Events are handled here one after another
(each task's effects threaded in arrival order). -/
def sessionRun (gen : Nat → List Utterance → List String)
    (st : SessionState) : List RawEvent → SessionState × List OutEvent
  | [] => (st, [])
  | e :: es =>
    let r := handle_message gen st e
    let rest := sessionRun gen r.st es
    (rest.1, r.out ++ rest.2)

/-- An inbound event lacking one of the required fields the handler
accesses: `interaction_type`, a ping's `timestamp`, or a response-needed
event's `response_id` or `transcript`. -/
def missingRequiredField (e : RawEvent) : Prop :=
  e.interaction_type = none ∨
  (e.interaction_type = some "ping_pong" ∧ e.timestamp = none) ∨
  ((e.interaction_type = some "response_required" ∨
      e.interaction_type = some "reminder_required") ∧
    (e.response_id = none ∨ e.transcript = none))

/-- A fragment generator for concrete runs: echo the response id. -/
def genEcho : Nat → List Utterance → List String := fun rid _ => [toString rid]

/-! ## Concurrent turn coordination (src/app-retell/server.py)

The supersession protocol of `websocket_handler`: each
`response_required` event's task assigns the `nonlocal response_id`
before its first await, then loops `async for event in draft_response:
await send(event); if request.response_id < response_id: break`. This is
a small-step system over two generation tasks interleaved by a schedule
of cooperative suspension points:
- `start`: the task's first scheduling — assigns the shared `response_id`
  (no await precedes the assignment in the source);
- emit (phase `running` with fragments pending): the generator yields and
  `send_json` flushes one fragment;
- check (phase `checking`): the `if request.response_id < response_id:
  break` comparison of the task's own id against the shared one;
- phase `running` with no fragment pending: the generator is exhausted,
  the loop ends. -/

/-- Where a generation task stands between suspension points. -/
inductive Phase where
  | notStarted
  | running
  | checking
  | done
deriving DecidableEq

/-- One `handle_message` task for a response-needed event: its captured
`request.response_id`, the fragments its generator has not yet yielded,
and its phase. -/
structure GenTask where
  rid : Nat
  pending : List String
  phase : Phase
deriving DecidableEq

/-- One fragment on the wire: which task flushed it (`false` = first
task), under which response id, with which content. -/
structure Emit where
  src : Bool
  response_id : Nat
  content : String
deriving DecidableEq

/-- The coordinator state: the shared `nonlocal response_id`, the two
tasks, and the sequence of fragments sent so far. -/
structure CoordState where
  response_id : Nat
  taskA : GenTask
  taskB : GenTask
  trace : List Emit
deriving DecidableEq

/-- Replace the chosen task. -/
def setTask (src : Bool) (t : GenTask) (s : CoordState) : CoordState :=
  if src then { s with taskB := t } else { s with taskA := t }

/-- Run the chosen task up to its next suspension point. -/
def stepTask (src : Bool) (s : CoordState) : CoordState :=
  let t := if src then s.taskB else s.taskA
  match t.phase with
  | .notStarted =>
    setTask src { t with phase := .running } { s with response_id := t.rid }
  | .running =>
    match t.pending with
    | [] => setTask src { t with phase := .done } s
    | f :: rest =>
      setTask src { t with pending := rest, phase := .checking }
        { s with trace := s.trace ++ [⟨src, t.rid, f⟩] }
  | .checking =>
    if t.rid < s.response_id then setTask src { t with phase := .done } s
    else setTask src { t with phase := .running } s
  | .done => s

/-- Run a whole interleaving schedule. -/
def coordRun (s : CoordState) : List Bool → CoordState
  | [] => s
  | c :: cs => coordRun (stepTask c s) cs

/-- The moment event B arrives: event A (id `a`) arrived first, its task
already assigned `response_id := a` and entered its streaming loop with
fragments `fragsA` still to yield; B's task (id `b`, fragments `fragsB`)
is created but has not run yet. -/
def initCoord (a b : Nat) (fragsA fragsB : List String) : CoordState :=
  { response_id := a
    taskA := ⟨a, fragsA, .running⟩
    taskB := ⟨b, fragsB, .notStarted⟩
    trace := [] }

/-- Number of trace entries flushed by the chosen task. -/
def countSrc (src : Bool) (tr : List Emit) : Nat :=
  (tr.filter (fun e => e.src == src)).length

/-- Number of first-task (A) fragments strictly after the first
second-task (B) fragment in the trace. -/
def staleCount : List Emit → Nat
  | [] => 0
  | e :: rest => if e.src then countSrc false rest else staleCount rest

/-- How many more fragments task A can still flush once superseded:
one when it sits in `running` with a fragment pending (it flushes before
it checks), none otherwise. -/
def creditA (t : GenTask) : Nat :=
  match t.phase with
  | .running => if t.pending = [] then 0 else 1
  | _ => 0

/-- Inductive invariant for the supersession bound, given ids `a < b`:
before B's task starts, the shared id is `a` and no B fragment is out;
afterwards the shared id is `b` and the stale fragments already out plus
A's remaining credit never exceed one. -/
def coordInv (a b : Nat) (s : CoordState) : Prop :=
  s.taskA.rid = a ∧ s.taskB.rid = b ∧ s.taskA.phase ≠ .notStarted ∧
    ((s.taskB.phase = .notStarted ∧ s.response_id = a ∧ countSrc true s.trace = 0) ∨
     (s.taskB.phase ≠ .notStarted ∧ s.response_id = b ∧
        staleCount s.trace + creditA s.taskA ≤ 1))

/-- Inductive invariant for the no-false-supersession claim, given a
second id `b ≤ a`: the shared id never exceeds `a`, task A is never in
`done` with fragments unflushed, and A's flushed fragments plus its
pending ones account for all of `fragsA`. -/
def coordInvLe (a : Nat) (fragsA : List String) (s : CoordState) : Prop :=
  s.taskA.rid = a ∧ s.taskB.rid ≤ a ∧ s.response_id ≤ a ∧
    (s.taskA.phase = .done → s.taskA.pending = []) ∧
    countSrc false s.trace + s.taskA.pending.length = fragsA.length

/-- Example criteria dict: city supplied with a non-null value. -/
def exCriteriaCity : SearchCriteria :=
  ⟨some (some "New York City"), none, none, none, none, none⟩

/-- Example update dict: the city key supplied with an explicit null. -/
def exUpdateNullCity : SearchCriteria :=
  ⟨some none, none, none, none, none, none⟩

/-! ## Theorems -/

/-- C6: an inbound webhook whose body parses but whose signature fails
`retell.verify` gets a 401 Unauthorized response and no event dispatch
runs, whatever the payload holds. -/
theorem c6_unauthorized_webhook (ev : Option String) (data : Option (Option String)) :
    handle_webhook ⟨true, false, ev, data⟩ = ⟨401, false⟩ := rfl

/-- C10: an inbound SMS form with no `Body` field makes `handle_sms`
return status 500 with body "An error occurred" (the `AttributeError`
from `None.strip()` is caught), leaving the shared thread untouched, for
every reply function, thread and sender. -/
theorem c10_missing_body (replyFn : List String → String) (thread : List String)
    (sender : Option String) :
    handle_sms replyFn thread ⟨none, sender⟩ = ⟨500, "An error occurred", thread⟩ := rfl

/-- C4: a `ping_pong` event with timestamp `ts` makes `handle_message`
send exactly one outbound event, of the `ping_pong` response kind, with
the identical timestamp — for every session state (in particular,
whatever generation is in flight and whatever `response_id` it set) and
whatever the event's other fields hold. -/
theorem c4_ping_pong_echo (gen : Nat → List Utterance → List String) (st : SessionState)
    (ts : Nat) (rid : Option Nat) (tr : Option (List Utterance)) :
    handle_message gen st ⟨some "ping_pong", some ts, rid, tr⟩ =
      ⟨st, [.ping_pong ts], true⟩ := rfl

/-- C8 counterexample: the claim says state-update and call-metadata
events update the session state. At a concrete `update_only` event
carrying a fresh transcript, the handler leaves the session state
exactly as it was (and emits nothing): no update of any session state
occurs — the source returns from those branches without touching
anything. -/
theorem c8_counterexample :
    (handle_message genEcho ⟨7⟩
        ⟨some "update_only", none, none, some [⟨"user", "3 bed in NYC"⟩]⟩).st = ⟨7⟩ ∧
      (handle_message genEcho ⟨7⟩
        ⟨some "update_only", none, none, some [⟨"user", "3 bed in NYC"⟩]⟩).out = [] := by
  decide

/-- C8 amended: on a state-update (`update_only`) or call-metadata
(`call_details`) event the handler emits no outbound event and leaves
the session state unchanged (the event is ignored apart from logging),
for every generator, state and payload. -/
theorem c8_amended (gen : Nat → List Utterance → List String) (st : SessionState)
    (ts : Option Nat) (rid : Option Nat) (tr : Option (List Utterance)) :
    handle_message gen st ⟨some "update_only", ts, rid, tr⟩ = ⟨st, [], true⟩ ∧
      handle_message gen st ⟨some "call_details", ts, rid, tr⟩ = ⟨st, [], true⟩ :=
  ⟨rfl, rfl⟩

/-- C3: the `while True:` retry loop of `Assistant.__call__` has no
retry cap — for any runnable that always reports empty output and no
tool call, the loop never returns, however much fuel it is given. This
contradicts the claimed bounded retry with a fallback message. -/
theorem c3_unbounded_retry (runnable : AssistantState → ModelResult)
    (uid : Option String) (h : ∀ st, emptyOutput (runnable st) = true)
    (st : AssistantState) (fuel : Nat) :
    assistantCall runnable uid st fuel = none := by
  induction fuel generalizing st with
  | zero => rfl
  | succ n ih =>
    simp only [assistantCall, h, if_true]
    exact ih _

/-- C3 witness: the always-empty stub satisfies the emptiness hypothesis,
and the loop is still spinning after 1000 iterations. -/
theorem c3_unbounded_retry_witness :
    (∀ st, emptyOutput (alwaysEmptyRunnable st) = true) ∧
      assistantCall alwaysEmptyRunnable none ⟨[], none⟩ 1000 = none :=
  ⟨fun _ => rfl,
    c3_unbounded_retry alwaysEmptyRunnable none (fun _ => rfl) ⟨[], none⟩ 1000⟩

/-- C5 counterexample: the claim says an SMS reply depends only on the
session's own messages. With a permissible reply function (answer with
the size of the transcript shown to the model), a message from sender Y
gets a different reply when a message from sender X was processed
earlier: both run through the one process-wide `graph`/`config` thread,
so X's session leaks into Y's reply. -/
theorem c5_counterexample :
    (handle_sms replyWithCount
        (handle_sms replyWithCount [] ⟨some "hello", some "X"⟩).thread
        ⟨some "hi", some "Y"⟩).content ≠
      (handle_sms replyWithCount [] ⟨some "hi", some "Y"⟩).content := by
  decide

/-- C5 amended: the websocket channel does build fresh per-connection
state, but `/sms` computes every reply from the single process-wide
thread: the reply to a message is the reply function applied to the
whole accumulated shared thread plus the new body, the sender identity
is ignored (any two senders are served from the same thread), and the
exchange is persisted back into that shared thread. -/
theorem c5_amended (replyFn : List String → String) (thread : List String)
    (b : String) (s1 s2 : Option String) :
    handle_sms replyFn thread ⟨some b, s1⟩ =
        ⟨200, replyFn (thread ++ [b.trim]), thread ++ [b.trim] ++ [replyFn (thread ++ [b.trim])]⟩ ∧
      handle_sms replyFn thread ⟨some b, s1⟩ = handle_sms replyFn thread ⟨some b, s2⟩ :=
  ⟨rfl, rfl⟩

/-- Folding the structure merge commutes with any field projection that
commutes with the one-step merge. -/
theorem foldl_update_proj {α : Type} (f : SearchCriteria → Option (Option α))
    (hf : ∀ c u, f (update_search_criteria c u) = mergeField (f c) (f u))
    (us : List SearchCriteria) :
    ∀ init : SearchCriteria,
      f (us.foldl update_search_criteria init) = (us.map f).foldl mergeField (f init) := by
  induction us with
  | nil => intro init; rfl
  | cons u us ih =>
    intro init
    simp only [List.foldl_cons, List.map_cons]
    rw [ih, hf]

/-- Auxiliary fact about `getLast?` under a cons, phrased through the
default-on-`none` match `lastSupplied` uses. -/
theorem lastSupplied_match_cons {α : Type} (l : List (Option α)) :
    ∀ (v : Option α) (c : Option (Option α)),
      (match (v :: l).getLast? with
       | none => c
       | some x => some x) =
        (match l.getLast? with
         | none => some v
         | some x => some x) := by
  induction l with
  | nil => intro v c; rfl
  | cons w ws ih =>
    intro v c
    rw [List.getLast?_cons_cons]
    rw [ih w c, ih w (some v)]

/-- The left fold of the per-key dict merge yields the last value
supplied for the key, or the prior binding if the key was never
supplied. -/
theorem foldl_mergeField_eq_lastSupplied {α : Type} (us : List (Option (Option α))) :
    ∀ c : Option (Option α), us.foldl mergeField c = lastSupplied c us := by
  induction us with
  | nil => intro c; rfl
  | cons u us ih =>
    intro c
    rw [List.foldl_cons, ih]
    cases u with
    | none => rfl
    | some v =>
      show lastSupplied (some v) us = lastSupplied c (some v :: us)
      unfold lastSupplied
      rw [show List.filterMap id (some v :: us) = v :: List.filterMap id us from rfl]
      exact (lastSupplied_match_cons (us.filterMap id) v c).symm

/-- C2 counterexample: the claim says the last NON-null value supplied
for a field wins. Starting from a dict whose `city` is "New York City",
one update that supplies `city` as an explicit null produces, through
the code's `\x7b**current, **update\x7d` merge, a dict whose city is
null — while the spec-worded merge (last non-null wins) keeps
"New York City". -/
theorem c2_counterexample :
    applyUpdates exCriteriaCity [exUpdateNullCity] ≠
      [exUpdateNullCity].foldl spec_merge_criteria exCriteriaCity := by
  decide

/-- C2 amended: after folding any sequence of updates into any initial
dict in arrival order, every field holds the LAST value supplied for it
(an explicit null counts as supplied and wins too), and a field never
supplied keeps its initial binding. -/
theorem c2_amended (init : SearchCriteria) (us : List SearchCriteria) :
    applyUpdates init us =
      { city := lastSupplied init.city (us.map (·.city))
        state := lastSupplied init.state (us.map (·.state))
        bedrooms := lastSupplied init.bedrooms (us.map (·.bedrooms))
        bathrooms := lastSupplied init.bathrooms (us.map (·.bathrooms))
        max_price := lastSupplied init.max_price (us.map (·.max_price))
        min_price := lastSupplied init.min_price (us.map (·.min_price)) } := by
  have hcity := foldl_update_proj (·.city) (fun _ _ => rfl) us init
  have hstate := foldl_update_proj (·.state) (fun _ _ => rfl) us init
  have hbed := foldl_update_proj (·.bedrooms) (fun _ _ => rfl) us init
  have hbath := foldl_update_proj (·.bathrooms) (fun _ _ => rfl) us init
  have hmax := foldl_update_proj (·.max_price) (fun _ _ => rfl) us init
  have hmin := foldl_update_proj (·.min_price) (fun _ _ => rfl) us init
  calc applyUpdates init us
      = ⟨(applyUpdates init us).city, (applyUpdates init us).state,
          (applyUpdates init us).bedrooms, (applyUpdates init us).bathrooms,
          (applyUpdates init us).max_price, (applyUpdates init us).min_price⟩ := rfl
    _ = _ := by
        simp only [applyUpdates]
        rw [hcity, hstate, hbed, hbath, hmax, hmin,
          foldl_mergeField_eq_lastSupplied, foldl_mergeField_eq_lastSupplied,
          foldl_mergeField_eq_lastSupplied, foldl_mergeField_eq_lastSupplied,
          foldl_mergeField_eq_lastSupplied, foldl_mergeField_eq_lastSupplied]

/-- C7: an inbound event missing a required field makes only its own
handler task fail: the task raises (ok is false) having emitted nothing,
and the receive loop goes on to handle every subsequent event from the
resulting session state — the session is not terminated. -/
theorem c7_malformed_event_isolated (gen : Nat → List Utterance → List String)
    (st : SessionState) (e : RawEvent) (es : List RawEvent)
    (h : missingRequiredField e) :
    (handle_message gen st e).ok = false ∧ (handle_message gen st e).out = [] ∧
      sessionRun gen st (e :: es) = sessionRun gen (handle_message gen st e).st es := by
  obtain ⟨it, ts, rid, tr⟩ := e
  rcases h with h | ⟨h1, h2⟩ | ⟨h1, h2⟩
  · subst h
    exact ⟨rfl, rfl, by simp [sessionRun, handle_message]⟩
  · simp only at h1 h2
    subst h1; subst h2
    exact ⟨rfl, rfl, by simp [sessionRun, handle_message]⟩
  · rcases h1 with h1 | h1 <;> simp only at h1 <;> subst h1 <;>
      rcases h2 with h2 | h2 <;> simp only at h2 <;> subst h2 <;>
        first
        | exact ⟨rfl, rfl, by simp [sessionRun, handle_message]⟩
        | (cases rid with
           | none => exact ⟨rfl, rfl, by simp [sessionRun, handle_message]⟩
           | some r => exact ⟨rfl, rfl, by simp [sessionRun, handle_message]⟩)

/-- C7 witness: an event with no `interaction_type` at all, followed by a
well-formed ping that is still answered. -/
theorem c7_malformed_event_isolated_witness :
    missingRequiredField ⟨none, none, none, none⟩ ∧
      ((handle_message genEcho ⟨0⟩ ⟨none, none, none, none⟩).ok = false ∧
        (handle_message genEcho ⟨0⟩ ⟨none, none, none, none⟩).out = [] ∧
        sessionRun genEcho ⟨0⟩
            [⟨none, none, none, none⟩, ⟨some "ping_pong", some 5, none, none⟩] =
          sessionRun genEcho (handle_message genEcho ⟨0⟩ ⟨none, none, none, none⟩).st
            [⟨some "ping_pong", some 5, none, none⟩]) :=
  ⟨Or.inl rfl,
    c7_malformed_event_isolated genEcho ⟨0⟩ ⟨none, none, none, none⟩
      [⟨some "ping_pong", some 5, none, none⟩] (Or.inl rfl)⟩

/-- Appending to the wire preserves per-task fragment counts additively. -/
theorem countSrc_append (src : Bool) (l1 l2 : List Emit) :
    countSrc src (l1 ++ l2) = countSrc src l1 + countSrc src l2 := by
  simp [countSrc, List.filter_append]

/-- A trace with no B fragment has no A fragment after B's first. -/
theorem staleCount_eq_zero (tr : List Emit) (h : countSrc true tr = 0) :
    staleCount tr = 0 := by
  induction tr with
  | nil => rfl
  | cons e rest ih =>
    obtain ⟨s, r, f⟩ := e
    cases s with
    | false =>
      simp only [countSrc, List.filter] at h
      exact ih h
    | true => simp [countSrc, List.filter] at h

/-- Flushing one more B fragment adds no stale A fragment. -/
theorem staleCount_append_true (tr : List Emit) (r : Nat) (f : String) :
    staleCount (tr ++ [⟨true, r, f⟩]) = staleCount tr := by
  induction tr with
  | nil => rfl
  | cons e rest ih =>
    obtain ⟨s, r0, f0⟩ := e
    cases s with
    | false => simpa [staleCount] using ih
    | true => simp [staleCount, countSrc_append, countSrc, List.filter]

/-- Flushing one more A fragment adds at most one stale A fragment. -/
theorem staleCount_append_false (tr : List Emit) (r : Nat) (f : String) :
    staleCount (tr ++ [⟨false, r, f⟩]) ≤ staleCount tr + 1 := by
  induction tr with
  | nil => simp [staleCount]
  | cons e rest ih =>
    obtain ⟨s, r0, f0⟩ := e
    cases s with
    | false => simpa [staleCount] using ih
    | true => simp [staleCount, countSrc_append, countSrc, List.filter]

/-- A task can owe at most one further fragment before its check. -/
theorem creditA_le_one (t : GenTask) : creditA t ≤ 1 := by
  unfold creditA
  cases t.phase <;> simp
  split <;> simp

/-- One cooperative step of either task preserves the supersession
invariant. -/
theorem coordInv_step (a b : Nat) (hab : a < b) (c : Bool) (s : CoordState)
    (hs : coordInv a b s) : coordInv a b (stepTask c s) := by
  obtain ⟨act, ⟨ra, pa, pha⟩, ⟨rb, pb, phb⟩, tr⟩ := s
  obtain ⟨hA, hB, hAstart, hdisj⟩ := hs
  dsimp only at hA hB hAstart hdisj
  subst hA; subst hB
  cases c with
  | false =>
    cases pha with
    | notStarted => exact absurd rfl hAstart
    | running =>
      cases pa with
      | nil =>
        simp only [stepTask, setTask, Bool.false_eq_true, if_false]
        refine ⟨rfl, rfl, by dsimp only; decide, ?_⟩
        rcases hdisj with ⟨h1, h2, h3⟩ | ⟨h1, h2, h3⟩
        · exact Or.inl ⟨h1, h2, h3⟩
        · refine Or.inr ⟨h1, h2, ?_⟩
          dsimp only [creditA] at h3 ⊢
          omega
      | cons f rest =>
        simp only [stepTask, setTask, Bool.false_eq_true, if_false]
        refine ⟨rfl, rfl, by dsimp only; decide, ?_⟩
        rcases hdisj with ⟨h1, h2, h3⟩ | ⟨h1, h2, h3⟩
        · refine Or.inl ⟨h1, h2, ?_⟩
          dsimp only
          rw [countSrc_append, h3]
          rfl
        · refine Or.inr ⟨h1, h2, ?_⟩
          dsimp only [creditA] at h3 ⊢
          simp only [List.cons_ne_nil, if_false] at h3
          have hle := staleCount_append_false tr ra f
          omega
    | checking =>
      simp only [stepTask, setTask, Bool.false_eq_true, if_false]
      rcases hdisj with ⟨h1, h2, h3⟩ | ⟨h1, h2, h3⟩
      · rw [h2, if_neg (Nat.lt_irrefl ra)]
        exact ⟨rfl, rfl, by dsimp only; decide, Or.inl ⟨h1, rfl, h3⟩⟩
      · rw [h2, if_pos hab]
        refine ⟨rfl, rfl, by dsimp only; decide, Or.inr ⟨h1, rfl, ?_⟩⟩
        dsimp only [creditA] at h3 ⊢
        omega
    | done => exact ⟨rfl, rfl, hAstart, hdisj⟩
  | true =>
    cases phb with
    | notStarted =>
      simp only [stepTask, setTask, if_true]
      refine ⟨rfl, rfl, hAstart, Or.inr ⟨by dsimp only; decide, rfl, ?_⟩⟩
      rcases hdisj with ⟨h1, h2, h3⟩ | ⟨h1, h2, h3⟩
      · have hz := staleCount_eq_zero tr h3
        have hc := creditA_le_one ⟨ra, pa, pha⟩
        dsimp only
        omega
      · exact absurd rfl h1
    | running =>
      rcases hdisj with ⟨h1, h2, h3⟩ | ⟨h1, h2, h3⟩
      · exact absurd h1 (by decide)
      · cases pb with
        | nil =>
          simp only [stepTask, setTask, if_true]
          exact ⟨rfl, rfl, hAstart, Or.inr ⟨by dsimp only; decide, h2, h3⟩⟩
        | cons f rest =>
          simp only [stepTask, setTask, if_true]
          refine ⟨rfl, rfl, hAstart, Or.inr ⟨by dsimp only; decide, h2, ?_⟩⟩
          dsimp only
          rw [staleCount_append_true]
          exact h3
    | checking =>
      rcases hdisj with ⟨h1, h2, h3⟩ | ⟨h1, h2, h3⟩
      · exact absurd h1 (by decide)
      · simp only [stepTask, setTask, if_true]
        rw [h2, if_neg (Nat.lt_irrefl rb)]
        exact ⟨rfl, rfl, hAstart, Or.inr ⟨by dsimp only; decide, rfl, h3⟩⟩
    | done => exact ⟨rfl, rfl, hAstart, hdisj⟩

/-- The supersession invariant holds along any interleaving schedule. -/
theorem coordInv_run (a b : Nat) (hab : a < b) (sched : List Bool) :
    ∀ s : CoordState, coordInv a b s → coordInv a b (coordRun s sched) := by
  induction sched with
  | nil => intro s hs; exact hs
  | cons c cs ih => intro s hs; exact ih _ (coordInv_step a b hab c s hs)

/-- C1 counterexample: with ids A = 1 < B = 2, B arriving mid-stream, the
legal cooperative schedule "A emits, A checks (still active), B starts,
B emits its first fragment, A emits" yields a wire trace in which a
fragment of A's generation follows B's first fragment — because the
source sends each fragment BEFORE checking whether its id is still
active, the claimed "no fragment from A after B's first" fails. -/
theorem c1_counterexample :
    (coordRun (initCoord 1 2 ["a1", "a2"] ["b1"]) [false, false, true, true, false]).trace =
        [⟨false, 1, "a1"⟩, ⟨true, 2, "b1"⟩, ⟨false, 1, "a2"⟩] ∧
      0 < staleCount (coordRun (initCoord 1 2 ["a1", "a2"] ["b1"])
          [false, false, true, true, false]).trace := by
  decide

/-- C1 amended: for ids A < B with B arriving while A's generation still
streams, every interleaving schedule leaves AT MOST ONE fragment of A's
generation after B's first fragment on the wire (the single fragment
already in flight when the staleness check fires). -/
theorem c1_amended (a b : Nat) (hab : a < b) (fragsA fragsB : List String)
    (sched : List Bool) :
    staleCount (coordRun (initCoord a b fragsA fragsB) sched).trace ≤ 1 := by
  have h0 : coordInv a b (initCoord a b fragsA fragsB) :=
    ⟨rfl, rfl, by dsimp only [initCoord]; decide, Or.inl ⟨rfl, rfl, rfl⟩⟩
  obtain ⟨-, -, -, hdisj⟩ := coordInv_run a b hab sched _ h0
  rcases hdisj with ⟨-, -, h3⟩ | ⟨-, -, h3⟩
  · have := staleCount_eq_zero _ h3
    omega
  · omega

/-- C1 amended witness: the bound instantiated on the counterexample's
own schedule. -/
theorem c1_amended_witness :
    1 < 2 ∧
      staleCount (coordRun (initCoord 1 2 ["a1", "a2"] ["b1"])
          [false, false, true, true, false]).trace ≤ 1 :=
  ⟨by decide, c1_amended 1 2 (by decide) ["a1", "a2"] ["b1"] [false, false, true, true, false]⟩

/-- One cooperative step preserves the no-false-supersession invariant. -/
theorem coordInvLe_step (a : Nat) (fragsA : List String) (c : Bool) (s : CoordState)
    (hs : coordInvLe a fragsA s) : coordInvLe a fragsA (stepTask c s) := by
  obtain ⟨act, ⟨ra, pa, pha⟩, ⟨rb, pb, phb⟩, tr⟩ := s
  obtain ⟨hA, hB, hact, hdone, hcnt⟩ := hs
  dsimp only at hA hB hact hdone hcnt
  subst hA
  cases c with
  | false =>
    cases pha with
    | notStarted =>
      simp only [stepTask, setTask, Bool.false_eq_true, if_false]
      exact ⟨rfl, hB, Nat.le_refl ra,
        by dsimp only; exact fun h => absurd h (by decide), hcnt⟩
    | running =>
      cases pa with
      | nil =>
        simp only [stepTask, setTask, Bool.false_eq_true, if_false]
        exact ⟨rfl, hB, hact, by dsimp only; exact fun _ => rfl, hcnt⟩
      | cons f rest =>
        simp only [stepTask, setTask, Bool.false_eq_true, if_false]
        refine ⟨rfl, hB, hact, by dsimp only; exact fun h => absurd h (by decide), ?_⟩
        dsimp only
        rw [countSrc_append]
        have h1 : countSrc false [(⟨false, ra, f⟩ : Emit)] = 1 := rfl
        dsimp only [List.length_cons] at hcnt
        omega
    | checking =>
      simp only [stepTask, setTask, Bool.false_eq_true, if_false]
      rw [if_neg (by omega : ¬ ra < act)]
      exact ⟨rfl, hB, hact, by dsimp only; exact fun h => absurd h (by decide), hcnt⟩
    | done => exact ⟨rfl, hB, hact, hdone, hcnt⟩
  | true =>
    cases phb with
    | notStarted =>
      simp only [stepTask, setTask, if_true]
      exact ⟨rfl, hB, hB, hdone, hcnt⟩
    | running =>
      cases pb with
      | nil =>
        simp only [stepTask, setTask, if_true]
        exact ⟨rfl, hB, hact, hdone, hcnt⟩
      | cons f rest =>
        simp only [stepTask, setTask, if_true]
        refine ⟨rfl, hB, hact, hdone, ?_⟩
        dsimp only
        rw [countSrc_append]
        have h1 : countSrc false [(⟨true, rb, f⟩ : Emit)] = 0 := rfl
        omega
    | checking =>
      simp only [stepTask, setTask, if_true]
      split
      · exact ⟨rfl, hB, hact, hdone, hcnt⟩
      · exact ⟨rfl, hB, hact, hdone, hcnt⟩
    | done => exact ⟨rfl, hB, hact, hdone, hcnt⟩

/-- The no-false-supersession invariant holds along any schedule. -/
theorem coordInvLe_run (a : Nat) (fragsA : List String) (sched : List Bool) :
    ∀ s : CoordState, coordInvLe a fragsA s → coordInvLe a fragsA (coordRun s sched) := by
  induction sched with
  | nil => intro s hs; exact hs
  | cons c cs ih => intro s hs; exact ih _ (coordInvLe_step a fragsA c s hs)

/-- C9: a second response-needed event whose id `b` is equal to or lower
than the in-flight generation's id `a` never silences that generation:
along every interleaving schedule, the in-flight task is never `done`
with fragments unflushed (its `break` can fire only on `a < response_id`,
impossible when the shared id never exceeds `a`), and its flushed
fragments plus pending ones always account for its whole stream. -/
theorem c9_no_false_supersession (a b : Nat) (hba : b ≤ a)
    (fragsA fragsB : List String) (sched : List Bool) :
    ((coordRun (initCoord a b fragsA fragsB) sched).taskA.phase = .done →
      (coordRun (initCoord a b fragsA fragsB) sched).taskA.pending = []) ∧
      countSrc false (coordRun (initCoord a b fragsA fragsB) sched).trace +
          (coordRun (initCoord a b fragsA fragsB) sched).taskA.pending.length =
        fragsA.length := by
  have h0 : coordInvLe a fragsA (initCoord a b fragsA fragsB) :=
    ⟨rfl, hba, Nat.le_refl a,
      by dsimp only [initCoord]; exact fun h => absurd h (by decide),
      by simp [initCoord, countSrc]⟩
  obtain ⟨-, -, -, hdone, hcnt⟩ := coordInvLe_run a fragsA sched _ h0
  exact ⟨hdone, hcnt⟩

/-- C9 witness: a duplicate id (5 arriving while 5 streams) on a schedule
that runs the duplicate first and then drives the in-flight generation to
completion. -/
theorem c9_no_false_supersession_witness :
    5 ≤ 5 ∧
      (((coordRun (initCoord 5 5 ["x", "y"] ["z"]) [true, true, false, false, false, false, false]).taskA.phase = .done →
        (coordRun (initCoord 5 5 ["x", "y"] ["z"]) [true, true, false, false, false, false, false]).taskA.pending = []) ∧
        countSrc false (coordRun (initCoord 5 5 ["x", "y"] ["z"]) [true, true, false, false, false, false, false]).trace +
            (coordRun (initCoord 5 5 ["x", "y"] ["z"]) [true, true, false, false, false, false, false]).taskA.pending.length =
          (["x", "y"] : List String).length) :=
  ⟨by decide,
    c9_no_false_supersession 5 5 (by decide) ["x", "y"] ["z"]
      [true, true, false, false, false, false, false]⟩

end Realtor
